import Mathlib

/-!
# Verification of the Pinecone migration scripts

Shallow embedding of the two Python modules of this repository:

* `pinecone_manager.py` — the `PineconeManager` class (index management
  façade: listing, creation, deletion, batched upsert, stats).
* `pinecone_index_migration/pinecone_migration.py` — the `migrate`
  orchestration routine and its `main` entry point.

Remote calls (the Pinecone service) are modelled as data supplied by an
environment: each remote interaction's outcome is a field of an `Env`
structure, and the embedded functions are deterministic functions of that
environment.  Python exceptions are modelled as explicit result values;
`sys.exit(1)` is a distinguished outcome, and an unhandled exception that
propagates out of `migrate` is another distinguished outcome (`crashed`),
kept separate from a clean `sys.exit(1)`.

Per §6 of the project description the remote service boundary exposes a
list-indexes call returning the set of index names under the credentials;
vendor calls are modelled at that boundary.
-/

namespace PineconeScripts

/-! ## PineconeManager.upsert_data (pinecone_manager.py, lines 142-165)

`upsert_data` early-returns when `vectors` is empty; otherwise it computes
`num_batches = math.ceil(len(vectors) / batch_size)` and, for
`i in range(num_batches)`, upserts the slice
`vectors[i*batch_size : min((i+1)*batch_size, len(vectors))]`.
The whole loop sits in a `try/except` that swallows any exception, so the
function always returns normally; a remote upsert that raises stops the
loop after the raising call. -/

/-- Python's `math.ceil(K / B)` for natural `K` and positive natural `B`. -/
def numBatches (K B : Nat) : Nat := (K + B - 1) / B

/-- Python's list slice `l[a:b]` (with `0 ≤ a ≤ b`). -/
def pySlice (l : List α) (a b : Nat) : List α := (l.take b).drop a

/-- The i-th batch of the upsert loop: `vectors[i*B : min((i+1)*B, K)]`,
which for a list is the same as dropping `i*B` elements and taking `B`. -/
def upsertBatches (vectors : List α) (batch_size : Nat) : List (List α) :=
  (List.range (numBatches vectors.length batch_size)).map
    (fun i => (vectors.drop (i * batch_size)).take batch_size)

/-- The sequence of `index.upsert` calls actually issued by the loop, given
an oracle `okf` saying whether a given remote upsert call succeeds: a call
that raises is still issued, but ends the loop (the exception is caught by
the surrounding `except`, so `upsert_data` itself returns normally — hence
the plain `List` result type with no exception case). -/
def issueCalls (okf : List α → Bool) : List (List α) → List (List α)
  | [] => []
  | b :: bs => if okf b then b :: issueCalls okf bs else [b]

/-- `upsert_data`, observed as the list of remote upsert calls it issues. -/
def upsertDataCalls (vectors : List α) (batch_size : Nat)
    (okf : List α → Bool) : List (List α) :=
  if vectors.isEmpty then []
  else issueCalls okf (upsertBatches vectors batch_size)

theorem numBatches_pos {K B : Nat} (hK : 0 < K) (hB : 0 < B) :
    0 < numBatches K B := by
  unfold numBatches
  exact Nat.div_pos (by omega) hB

theorem numBatches_succ {K B : Nat} (hK : 0 < K) (hB : 0 < B) :
    numBatches K B = numBatches (K - B) B + 1 := by
  unfold numBatches
  rcases Nat.le_total K B with h | h
  · have h1 : K - B = 0 := by omega
    have h2 : K + B - 1 = (K - 1) + B := by omega
    have h3 : K - 1 < B := by omega
    have h4 : 0 + B - 1 < B := by omega
    rw [h1, h2, Nat.add_div_right _ hB, Nat.div_eq_of_lt h3, Nat.div_eq_of_lt h4]
  · have h2 : K + B - 1 = ((K - B) + B - 1) + B := by omega
    rw [h2, Nat.add_div_right _ hB]

/-- One unfolding of the batch list: a nonempty input's batches are the
first `B` elements followed by the batches of the rest. -/
theorem upsertBatches_cons {B : Nat} (hB : 0 < B) (l : List α) (hl : l ≠ []) :
    upsertBatches l B = l.take B :: upsertBatches (l.drop B) B := by
  have hK : 0 < l.length := List.length_pos.mpr hl
  unfold upsertBatches
  rw [List.length_drop, numBatches_succ hK hB, List.range_succ_eq_map]
  simp only [List.map_cons, List.map_map, Nat.zero_mul, List.drop_zero]
  congr 1
  apply List.map_congr_left
  intro i _
  simp only [Function.comp_apply, List.drop_drop]
  have h5 : i.succ * B = B + i * B := by rw [Nat.succ_mul, Nat.add_comm]
  rw [h5]

theorem upsertBatches_length (l : List α) (B : Nat) :
    (upsertBatches l B).length = numBatches l.length B := by
  simp [upsertBatches]

/-- Fuel-indexed form of the concatenation property. -/
theorem upsertBatches_flatten_aux {B : Nat} (hB : 0 < B) :
    ∀ (n : Nat) (l : List α), l.length ≤ n → (upsertBatches l B).flatten = l := by
  intro n
  induction n with
  | zero =>
    intro l hl
    have : l = [] := List.eq_nil_of_length_eq_zero (by omega)
    subst this
    simp [upsertBatches, numBatches]
  | succ n ih =>
    intro l hl
    by_cases hnil : l = []
    · subst hnil; simp [upsertBatches, numBatches]
    · rw [upsertBatches_cons hB l hnil]
      simp only [List.flatten_cons]
      rw [ih (l.drop B) (by simp [List.length_drop]; omega)]
      exact List.take_append_drop B l

/-- Concatenating the batches in order recovers the input list. -/
theorem upsertBatches_flatten {B : Nat} (hB : 0 < B) (l : List α) :
    (upsertBatches l B).flatten = l :=
  upsertBatches_flatten_aux hB l.length l le_rfl

/-- Every batch has size at most `B`. -/
theorem upsertBatches_size_le (l : List α) (B : Nat) :
    ∀ b ∈ upsertBatches l B, b.length ≤ B := by
  intro b hb
  simp only [upsertBatches, List.mem_map, List.mem_range] at hb
  obtain ⟨i, _, rfl⟩ := hb
  rw [List.length_take]
  exact Nat.min_le_left _ _

/-- The i-th issued batch is exactly the Python slice
`vectors[i*B : min((i+1)*B, K)]`. -/
theorem upsertBatches_get (l : List α) (B : Nat) (i : Nat)
    (hi : i < numBatches l.length B) :
    (upsertBatches l B)[i]? =
      some (pySlice l (i * B) (min ((i + 1) * B) l.length)) := by
  unfold upsertBatches pySlice
  rw [List.getElem?_map, List.getElem?_range hi]
  rw [Option.map_some']
  congr 1
  rcases Nat.le_total ((i + 1) * B) l.length with h | h
  · rw [Nat.min_eq_left h, List.drop_take]
    congr 1
    rw [Nat.succ_mul]
    omega
  · rw [Nat.min_eq_right h, List.take_length]
    apply List.take_of_length_le
    rw [List.length_drop]
    rw [Nat.succ_mul] at h
    omega

/-- When no remote call raises, every planned batch is issued. -/
theorem issueCalls_all_ok (okf : List α → Bool)
    (h : ∀ b, okf b = true) (bs : List (List α)) :
    issueCalls okf bs = bs := by
  induction bs with
  | nil => rfl
  | cons b bs ih => simp [issueCalls, h, ih]

/-! ## Namespace enumeration (pinecone_migration.py, lines 95-104)

```
namespaces = list(source_stats.namespaces.keys()) if source_stats and source_stats.namespaces else []
if source_stats.total_vector_count > 0 and not namespaces:
    namespaces = ['']
```
`source_stats` is the return of `PineconeManager.describe_index_stats`,
which is `None` on error.  The stats object carries `total_vector_count`
and a per-namespace counts mapping `namespaces` (keys in insertion order);
a `None` or empty mapping is falsy in Python. -/

/-- A (non-`None`) stats object.  `namespaces = none` models a `None`
mapping attribute; `some m` models a dict with entries `m` in order. -/
structure IndexStats where
  total_vector_count : Nat
  namespaces : Option (List (String × Nat))
deriving Repr, DecidableEq

/-- The namespace list `migrate` derives from a non-`None` stats object
(lines 96-101). -/
def deriveNamespaces (s : IndexStats) : List String :=
  let namespaces : List String :=
    match s.namespaces with
    | some m => if m.isEmpty then [] else m.map Prod.fst
    | none => []
  if s.total_vector_count > 0 && namespaces.isEmpty then [""] else namespaces

/-! ## The transfer loop (pinecone_migration.py, lines 111-156)

Per namespace, the body iterates `source_index_obj.list(namespace=ns)`
(pages of IDs), skips empty pages, fetches the vectors for a page, builds
`batch_data` from the fetched map (missing metadata defaults to `{}`),
and when `batch_data` is nonempty calls
`dest_mgr.upsert_data(batch_data, ns, batch_size=len(batch_data))` and
adds `len(batch_data)` to `total_migrated` — unconditionally, since
`upsert_data` never raises.  An `AttributeError` anywhere in the body is
caught and `break`s the whole loop (the capability-missing report); any
other exception is caught, logged, and the loop continues with the next
namespace.  The environment describes one namespace's iteration as a list
of steps: yielded pages (with their fetch responses) and, possibly, a
point where an exception is raised. -/

/-- A fetched vector: values plus optional metadata
(`vec_data.get('metadata', {})` defaults to an empty mapping). -/
structure VecData where
  values : List Int
  metadata : Option (List (String × String))
deriving Repr, DecidableEq

/-- The record shape `migrate` builds for the destination upsert. -/
structure MigRecord where
  id : String
  values : List Int
  metadata : List (String × String)
deriving Repr, DecidableEq

/-- The two exception classes the transfer loop distinguishes:
`AttributeError` (the capability-missing condition) and everything else. -/
inductive PyExc where
  | attrError
  | otherError
deriving Repr, DecidableEq

/-- One step of iterating a namespace: either the ID lister yields a page
(with the fetch response the environment returns for it), or an exception
is raised at this point of the body. -/
inductive PageStep where
  | page (ids : List String) (fetched : List (String × VecData))
  | raise (e : PyExc)
deriving Repr, DecidableEq

/-- `batch_data` built from a fetch response (lines 132-138). -/
def pageBatch (fetched : List (String × VecData)) : List MigRecord :=
  fetched.map (fun p => ⟨p.1, p.2.values, p.2.metadata.getD []⟩)

/-- Run one namespace's body.  Returns the sizes of the batches counted
into `total_migrated` (in order) and the exception, if any, that ended the
iteration.  `okf` is the oracle for whether a remote upsert call inside
`upsert_data` succeeds; `upsert_data` swallows its exceptions, so `okf`
cannot end the iteration — the call is made (`upsertDataCalls`) and
`len(batch_data)` is counted either way. -/
def processNs (okf : List MigRecord → Bool) : List PageStep → List Nat × Option PyExc
  | [] => ([], none)
  | .raise e :: _ => ([], some e)
  | .page ids fetched :: rest =>
    if ids.isEmpty then processNs okf rest
    else
      let batch := pageBatch fetched
      if batch.isEmpty then processNs okf rest
      else
        let _calls := upsertDataCalls batch batch.length okf
        let r := processNs okf rest
        (batch.length :: r.1, r.2)

/-- Result of the transfer loop. -/
structure TransferResult where
  /-- Namespaces whose body was entered, in order. -/
  attempted : List String
  /-- The `total_migrated` accumulator at the end. -/
  total : Nat
  /-- The `upsert_data` calls issued, as (namespace, batch length). -/
  upserts : List (String × Nat)
  /-- Whether the loop ended via the `AttributeError` branch (the
  capability-missing report followed by `break`). -/
  capabilityAbort : Bool
deriving Repr, DecidableEq

/-- The `for ns in namespaces` loop (lines 113-153).  `pages ns` is the
iteration the environment provides for namespace `ns`. -/
def transferLoop (okf : List MigRecord → Bool) (pages : String → List PageStep) :
    List String → TransferResult
  | [] => ⟨[], 0, [], false⟩
  | ns :: rest =>
    let r := processNs okf (pages ns)
    match r.2 with
    | some .attrError =>
      ⟨[ns], r.1.sum, r.1.map (fun c => (ns, c)), true⟩
    | some .otherError =>
      let t := transferLoop okf pages rest
      ⟨ns :: t.attempted, r.1.sum + t.total,
       r.1.map (fun c => (ns, c)) ++ t.upserts, t.capabilityAbort⟩
    | none =>
      let t := transferLoop okf pages rest
      ⟨ns :: t.attempted, r.1.sum + t.total,
       r.1.map (fun c => (ns, c)) ++ t.upserts, t.capabilityAbort⟩

/-! ## migrate (pinecone_migration.py, lines 15-156)

The phases before the transfer loop, with each remote outcome supplied by
the environment.  `sys.exit(1)` and an unhandled exception propagating out
of `migrate` are distinct outcomes: an uncaught exception is a crash with
a traceback, not a clean `sys.exit(1)`.

The readiness-polling loop of phase 2 (`while not ... status['ready']`)
only sleeps and re-polls; it has no observable effect on the rest of the
run, so the model assumes the environment eventually reports the index
ready and elides the wait. -/

/-- Outcome of `pc.describe_index(name)`: the describe call either returns
a descriptor with a dimension and metric, or raises. -/
inductive DescribeResult where
  | ok (dimension : Nat) (metric : String)
  | err
deriving Repr, DecidableEq

/-- The environment: every remote interaction's outcome, as data. -/
structure Env where
  /-- Index names under the source credentials (`source_mgr.list_indexes()`). -/
  sourceIndexes : List String
  /-- `source_mgr.pc.describe_index(source_index_name)`. -/
  sourceDescribe : DescribeResult
  /-- Index names under the destination credentials. -/
  destIndexes : List String
  /-- `dest_mgr.pc.describe_index(dest_index_name)`. -/
  destDescribe : DescribeResult
  /-- `source_mgr.describe_index_stats()`; `none` is the error sentinel. -/
  sourceStats : Option IndexStats
  /-- Iteration of `source_index_obj.list(namespace=ns)` plus fetches. -/
  pages : String → List PageStep
  /-- Whether a remote upsert call on the destination succeeds. -/
  upsertOk : List MigRecord → Bool

/-- How a run of `migrate` ends. -/
inductive Outcome where
  | exited (code : Nat)
  | crashed
  | completed (total : Nat) (capabilityAbort : Bool)
deriving Repr, DecidableEq

/-- Observable result of `migrate`: the upsert calls issued to the
destination (in order) and the way the run ended. -/
structure MigrateResult where
  upserts : List (String × Nat)
  outcome : Outcome
deriving Repr, DecidableEq

/-- The phase-2 exit condition (lines 63-76): the destination index
exists and its describe call returns a dimension different from the
source's.  A failing destination describe only warns (line 76). -/
def destDimensionExit (dest_index_name : String) (env : Env)
    (source_dim : Nat) : Bool :=
  decide (dest_index_name ∈ env.destIndexes) &&
    (match env.destDescribe with
     | .ok d _ => decide (d ≠ source_dim)
     | .err => false)

/-- The `migrate` function.  Control flow in source order:
source existence check (line 30), source describe (lines 37-44),
destination existence + dimension check (lines 63-87), stats and
namespace derivation (lines 95-104) — where a `None` stats object makes
line 100 (`source_stats.total_vector_count`) raise an uncaught
`AttributeError` — then the transfer loop and the completion summary. -/
def migrate (source_index_name dest_index_name : String) (env : Env) :
    MigrateResult :=
  if source_index_name ∉ env.sourceIndexes then ⟨[], .exited 1⟩
  else
    match env.sourceDescribe with
    | .err => ⟨[], .exited 1⟩
    | .ok source_dim _source_metric =>
      if destDimensionExit dest_index_name env source_dim then ⟨[], .exited 1⟩
      else
        match env.sourceStats with
        | none => ⟨[], .crashed⟩
        | some stats =>
          ⟨(transferLoop env.upsertOk env.pages (deriveNamespaces stats)).upserts,
           .completed
             (transferLoop env.upsertOk env.pages (deriveNamespaces stats)).total
             (transferLoop env.upsertOk env.pages
               (deriveNamespaces stats)).capabilityAbort⟩

/-! ## main (pinecone_migration.py, lines 158-185) -/

/-- Python `str.replace(pat, "")` with a one-character pattern: removes
every occurrence of that character. -/
def removeChar (c : Char) (s : String) : String :=
  ⟨s.data.filter (fun a => a ≠ c)⟩

/-- Python `str.strip()` with no argument: drop leading and trailing
whitespace. -/
def pyStrip (s : String) : String :=
  ⟨((s.data.dropWhile Char.isWhitespace).reverse.dropWhile
      Char.isWhitespace).reverse⟩

/-- Python string truthiness: the empty string is falsy. -/
def strEmpty (s : String) : Bool := s.data.isEmpty

/-- Key cleanup at lines 161-162: remove double quotes (code point 34)
and single quotes (code point 39), then strip whitespace. -/
def stripKey (s : String) : String :=
  pyStrip (removeChar (Char.ofNat 39) (removeChar (Char.ofNat 34) s))

/-- Inputs to `main`: raw key environment variables, `sys.argv[1:]`, and
the two interactive `input()` answers (used only when argv is empty). -/
structure MainEnv where
  source_key_raw : String
  dest_key_raw : String
  argv : List String
  input_source : String
  input_dest : String
  env : Env

/-- Index-name selection (lines 169-182): positional arguments if present,
otherwise interactive prompts; `none` means the interactive source name
was empty (fatal).  The destination name defaults to the source name. -/
def selectIndexNames (m : MainEnv) : Option (String × String) :=
  match m.argv with
  | [] =>
    let source_idx := pyStrip m.input_source
    if strEmpty source_idx then none
    else
      let dest_trim := pyStrip m.input_dest
      some (source_idx, if strEmpty dest_trim then source_idx else dest_trim)
  | a1 :: rest =>
    match rest with
    | [] => some (a1, a1)
    | a2 :: _ => some (a1, a2)

/-- The `main` function: credential check (lines 161-167), index-name
selection, then `migrate`. -/
def pyMain (m : MainEnv) : MigrateResult :=
  if strEmpty (stripKey m.source_key_raw) ||
      strEmpty (stripKey m.dest_key_raw) then ⟨[], .exited 1⟩
  else
    match selectIndexNames m with
    | none => ⟨[], .exited 1⟩
    | some (source_idx, dest_idx) => migrate source_idx dest_idx m.env

/-- The process exit code an outcome yields: `sys.exit(c)` gives `c`,
falling off `main` gives the implicit 0, and a crash is not a clean exit
(the interpreter reports a traceback). -/
def Outcome.cleanExitCode : Outcome → Option Nat
  | .exited c => some c
  | .crashed => none
  | .completed _ _ => some 0

/-! ## PineconeManager.delete_index (pinecone_manager.py, lines 103-109)

```
def delete_index(self):
    if self.index_name in self.pc.list_indexes():
        self.pc.delete_index(self.index_name)
        ...
        self.index = None
    else:
        print(f"Index '{self.index_name}' does not exist.")
```
Unlike every other existence check in the repository (`create_index`
line 36, `migrate` lines 29-30 and 63-64), which goes through the
wrapper `list_indexes` (lines 111-113) extracting names via
`idx['name']`, this guard tests the configured name *string* against
the raw `pc.list_indexes()` return.  Line 113 shows the raw call's
elements are dict-like index descriptors, not strings, so Python's
`in` compares a `str` against descriptor objects with `==`, which is
always `False`: the delete branch of lines 105-107 is unreachable. -/

/-- A descriptor element of the raw `pc.list_indexes()` return; the
wrapper reads its `'name'` field (line 113). -/
structure IndexModel where
  name : String
deriving Repr, DecidableEq

/-- The remote service state visible to one manager: its index
descriptors (names unique on the service). -/
structure RemoteState where
  indexes : List IndexModel
deriving Repr, DecidableEq

/-- The wrapper `list_indexes` (lines 111-113): the names of the raw
call's descriptors. -/
def list_indexes (r : RemoteState) : List String :=
  r.indexes.map IndexModel.name

/-- Python `==` between a `str` and a descriptor object: neither type
implements cross-type equality, so the comparison is always `False`. -/
def pyStrEqIndexModel (_s : String) (_im : IndexModel) : Bool := false

/-- The local state of a manager relevant to `delete_index`:
its configured index name and whether `self.index` caches a connection. -/
structure ManagerConn where
  index_name : String
  cached : Bool
deriving Repr, DecidableEq

/-- Observable events of a `delete_index` call. -/
inductive DeleteEvent where
  | deleteCall (name : String)
  | noticeAbsent
deriving Repr, DecidableEq

/-- `delete_index`: the guard of line 104 is the name string's Python
membership in the raw descriptor list (`==` against each element); if
it held, the remote delete would be issued and the cache cleared, else
only the does-not-exist notice is printed. -/
def delete_index (m : ManagerConn) (r : RemoteState) :
    ManagerConn × RemoteState × List DeleteEvent :=
  if r.indexes.any (pyStrEqIndexModel m.index_name) then
    (⟨m.index_name, false⟩,
     ⟨r.indexes.filter (fun im => im.name != m.index_name)⟩,
     [.deleteCall m.index_name])
  else
    (m, r, [.noticeAbsent])

/-! ## PineconeManager.__init__ and credential capture
(pinecone_manager.py lines 14-33; pinecone_migration.py lines 21-26 and
55-60)

`__init__` reads `PINECONE_API_KEY` and `PINECONE_INDEX_NAME` from the
process environment once, into instance attributes; `migrate` mutates the
environment before each construction. -/

/-- The process environment as a lookup of variable values. -/
def Environ : Type := String → Option String

/-- `os.environ[k] = v`. -/
def setenv (e : Environ) (k v : String) : Environ :=
  fun k' => if k' = k then some v else e k'

/-- The attributes `__init__` captures (lines 15-16). -/
structure ManagerInit where
  api_key : Option String
  index_name : Option String
deriving Repr, DecidableEq

/-- `PineconeManager()` construction: reads the two variables from the
environment at that moment. -/
def managerInit (e : Environ) : ManagerInit :=
  ⟨e "PINECONE_API_KEY", e "PINECONE_INDEX_NAME"⟩

/-- The environment-mutation and construction sequence of `migrate`
phases 1-2 (lines 22-26 then 56-60), returning the two constructed
managers. -/
def migrateManagers (e0 : Environ) (source_key source_index_name
    dest_key dest_index_name : String) : ManagerInit × ManagerInit :=
  let e1 := setenv (setenv e0 "PINECONE_API_KEY" source_key)
      "PINECONE_INDEX_NAME" source_index_name
  let source_mgr := managerInit e1
  let e2 := setenv (setenv e1 "PINECONE_API_KEY" dest_key)
      "PINECONE_INDEX_NAME" dest_index_name
  let dest_mgr := managerInit e2
  (source_mgr, dest_mgr)

/-! ## Helper lemmas -/

/-- `processNs` never reads the upsert-success oracle: `upsert_data`
swallows its exceptions, so the oracle cannot influence counts or the
exception that ends the iteration. -/
theorem processNs_okf_irrel (okf okf' : List MigRecord → Bool) :
    ∀ steps : List PageStep, processNs okf steps = processNs okf' steps := by
  intro steps
  induction steps with
  | nil => rfl
  | cons s rest ih =>
    cases s with
    | raise e => rfl
    | page ids fetched =>
      simp only [processNs, ih]

/-- Unfolding the loop at a namespace whose body ends in `AttributeError`:
the loop `break`s with the results accumulated so far. -/
theorem transferLoop_cons_attr (okf : List MigRecord → Bool)
    (pages : String → List PageStep) (ns : String) (rest : List String)
    (h : (processNs okf (pages ns)).2 = some PyExc.attrError) :
    transferLoop okf pages (ns :: rest) =
      ⟨[ns], (processNs okf (pages ns)).1.sum,
       (processNs okf (pages ns)).1.map (fun c => (ns, c)), true⟩ := by
  rcases hp : processNs okf (pages ns) with ⟨cs, e⟩
  rw [hp] at h
  simp only at h
  subst h
  simp [transferLoop, hp]

/-- Unfolding the loop at a namespace whose body either completes or ends
in a non-`AttributeError` exception: the loop continues with the rest. -/
theorem transferLoop_cons_continue (okf : List MigRecord → Bool)
    (pages : String → List PageStep) (ns : String) (rest : List String)
    (h : (processNs okf (pages ns)).2 ≠ some PyExc.attrError) :
    transferLoop okf pages (ns :: rest) =
      ⟨ns :: (transferLoop okf pages rest).attempted,
       (processNs okf (pages ns)).1.sum + (transferLoop okf pages rest).total,
       (processNs okf (pages ns)).1.map (fun c => (ns, c)) ++
         (transferLoop okf pages rest).upserts,
       (transferLoop okf pages rest).capabilityAbort⟩ := by
  rcases hp : processNs okf (pages ns) with ⟨cs, e⟩
  rw [hp] at h
  simp only at h
  cases e with
  | none => simp [transferLoop, hp]
  | some exc =>
    cases exc with
    | attrError => exact absurd rfl h
    | otherError => simp [transferLoop, hp]

/-- Full characterization of the loop when no namespace's body raises
`AttributeError`: every namespace is attempted in order, the total is the
sum of all per-namespace counted batches, and there is no capability
abort. -/
theorem transferLoop_no_attr (okf : List MigRecord → Bool)
    (pages : String → List PageStep) (l : List String)
    (h : ∀ n ∈ l, (processNs okf (pages n)).2 ≠ some PyExc.attrError) :
    transferLoop okf pages l =
      ⟨l, (l.map (fun n => (processNs okf (pages n)).1.sum)).sum,
       l.flatMap (fun n => (processNs okf (pages n)).1.map (fun c => (n, c))),
       false⟩ := by
  induction l with
  | nil => rfl
  | cons ns rest ih =>
    rw [transferLoop_cons_continue okf pages ns rest (h ns (by simp)),
        ih (fun n hn => h n (by simp [hn]))]
    simp

/-- Full characterization of the loop when the body of `ns` raises
`AttributeError` and no earlier namespace does: the loop attempts exactly
the namespaces up to and including `ns` and then `break`s. -/
theorem transferLoop_break (okf : List MigRecord → Bool)
    (pages : String → List PageStep) (pre post : List String) (ns : String)
    (hpre : ∀ n ∈ pre, (processNs okf (pages n)).2 ≠ some PyExc.attrError)
    (hns : (processNs okf (pages ns)).2 = some PyExc.attrError) :
    transferLoop okf pages (pre ++ ns :: post) =
      ⟨pre ++ [ns],
       (pre.map (fun n => (processNs okf (pages n)).1.sum)).sum +
         (processNs okf (pages ns)).1.sum,
       pre.flatMap (fun n => (processNs okf (pages n)).1.map (fun c => (n, c)))
         ++ (processNs okf (pages ns)).1.map (fun c => (ns, c)),
       true⟩ := by
  induction pre with
  | nil =>
    rw [List.nil_append, transferLoop_cons_attr okf pages ns post hns]
    simp
  | cons p pre ih =>
    rw [List.cons_append,
        transferLoop_cons_continue okf pages p _ (hpre p (by simp)),
        ih (fun n hn => hpre n (by simp [hn]))]
    simp [Nat.add_assoc]

/-- A batch fed to `upsert_data` with `batch_size = len(batch)` is planned
as the single chunk `[batch]`. -/
theorem upsertBatches_self (batch : List α) (hb : batch ≠ []) :
    upsertBatches batch batch.length = [batch] := by
  have hlen : 0 < batch.length := List.length_pos.mpr hb
  have h1 : numBatches batch.length batch.length = 1 := by
    unfold numBatches
    apply Nat.div_eq_of_lt_le <;> omega
  unfold upsertBatches
  have h2 : List.range 1 = [0] := rfl
  rw [h1, h2]
  simp

/-- The single-chunk upsert call is issued whether or not the remote call
succeeds (a raising call is still issued; the exception is swallowed). -/
theorem upsertDataCalls_self (batch : List α) (hb : batch ≠ [])
    (okf : List α → Bool) :
    upsertDataCalls batch batch.length okf = [batch] := by
  unfold upsertDataCalls
  rw [if_neg (by simpa using hb), upsertBatches_self batch hb]
  unfold issueCalls
  cases okf batch <;> rfl

/-- The phase-2 check passes (no exit) when any existing destination's
described dimension agrees with the source's. -/
theorem destDimensionExit_false (d : String) (env : Env) (dim : Nat)
    (hdest : d ∈ env.destIndexes →
      ∀ dd mt, env.destDescribe = .ok dd mt → dd = dim) :
    destDimensionExit d env dim = false := by
  unfold destDimensionExit
  by_cases hd : d ∈ env.destIndexes
  · cases hdd : env.destDescribe with
    | ok dd mt => simp [hdest hd dd mt hdd]
    | err => simp
  · simp [hd]

/-- Characterization of the phase-2 exit condition. -/
theorem destDimensionExit_true (d : String) (env : Env) (dim : Nat) :
    destDimensionExit d env dim = true ↔
      d ∈ env.destIndexes ∧
        ∃ dd mt, env.destDescribe = .ok dd mt ∧ dd ≠ dim := by
  unfold destDimensionExit
  cases hdd : env.destDescribe with
  | ok dd mt => simp [hdd]
  | err => simp [hdd]

/-- Reduction of `migrate` on a run that reaches the transfer phase:
source present, source describe succeeds, destination check passes, and
stats are non-`None`. -/
theorem migrate_run (s d : String) (env : Env) (dim : Nat) (met : String)
    (stats : IndexStats)
    (hs : s ∈ env.sourceIndexes)
    (hsd : env.sourceDescribe = .ok dim met)
    (hdest : d ∈ env.destIndexes →
      ∀ dd mt, env.destDescribe = .ok dd mt → dd = dim)
    (hstats : env.sourceStats = some stats) :
    migrate s d env =
      ⟨(transferLoop env.upsertOk env.pages (deriveNamespaces stats)).upserts,
       .completed
         (transferLoop env.upsertOk env.pages (deriveNamespaces stats)).total
         (transferLoop env.upsertOk env.pages
           (deriveNamespaces stats)).capabilityAbort⟩ := by
  have hde := destDimensionExit_false d env dim hdest
  simp [migrate, hs, hsd, hde, hstats]

/-- The explicit `sys.exit` calls in `migrate` all use code 1, and each
corresponds to one of the three setup conditions reachable inside
`migrate`. -/
theorem migrate_exited (s d : String) (env : Env) (c : Nat)
    (h : (migrate s d env).outcome = .exited c) :
    c = 1 ∧ (s ∉ env.sourceIndexes ∨ env.sourceDescribe = .err ∨
      (d ∈ env.destIndexes ∧ ∃ dim met dd mt,
        env.sourceDescribe = .ok dim met ∧ env.destDescribe = .ok dd mt ∧
        dd ≠ dim)) := by
  by_cases hs : s ∈ env.sourceIndexes
  · cases hsd : env.sourceDescribe with
    | err =>
      simp [migrate, hs, hsd] at h
      exact ⟨h.symm, Or.inr (Or.inl rfl)⟩
    | ok dim met =>
      by_cases hde : destDimensionExit d env dim = true
      · simp [migrate, hs, hsd, hde] at h
        obtain ⟨hd, dd, mt, hdd, hne⟩ := (destDimensionExit_true d env dim).mp hde
        exact ⟨h.symm, Or.inr (Or.inr ⟨hd, dim, met, dd, mt, rfl, hdd, hne⟩)⟩
      · have hde' : destDimensionExit d env dim = false := by
          simpa using hde
        cases hst : env.sourceStats with
        | none => simp [migrate, hs, hsd, hde', hst] at h
        | some stats => simp [migrate, hs, hsd, hde', hst] at h
  · simp [migrate, hs] at h
    exact ⟨h.symm, Or.inl hs⟩

/-- The setup conditions under which `main` reaches `sys.exit(1)`. -/
def setupFailure (m : MainEnv) : Prop :=
  strEmpty (stripKey m.source_key_raw) = true ∨
  strEmpty (stripKey m.dest_key_raw) = true ∨
  selectIndexNames m = none ∨
  ∃ s d, selectIndexNames m = some (s, d) ∧
    (s ∉ m.env.sourceIndexes ∨ m.env.sourceDescribe = .err ∨
     (d ∈ m.env.destIndexes ∧ ∃ dim met dd mt,
       m.env.sourceDescribe = .ok dim met ∧
       m.env.destDescribe = .ok dd mt ∧ dd ≠ dim))

/-- Every explicit exit of `main` (and of the `migrate` it calls) uses
code 1 and stems from one of the setup conditions. -/
theorem pyMain_exited (m : MainEnv) (c : Nat)
    (h : (pyMain m).outcome = .exited c) :
    c = 1 ∧ setupFailure m := by
  by_cases hk : (strEmpty (stripKey m.source_key_raw) ||
      strEmpty (stripKey m.dest_key_raw)) = true
  · simp only [pyMain, hk, if_true] at h
    refine ⟨by simpa using h.symm, ?_⟩
    have hk' : strEmpty (stripKey m.source_key_raw) = true ∨
        strEmpty (stripKey m.dest_key_raw) = true := by simpa using hk
    rcases hk' with h1 | h1
    · exact Or.inl h1
    · exact Or.inr (Or.inl h1)
  · cases hsel : selectIndexNames m with
    | none =>
      simp [pyMain, hk, hsel] at h
      exact ⟨h.symm, Or.inr (Or.inr (Or.inl hsel))⟩
    | some sd =>
      have h' : (migrate sd.1 sd.2 m.env).outcome = .exited c := by
        simpa [pyMain, hk, hsel] using h
      obtain ⟨c1, h2⟩ := migrate_exited sd.1 sd.2 m.env c h'
      exact ⟨c1, Or.inr (Or.inr (Or.inr ⟨sd.1, sd.2, by simpa using hsel, h2⟩))⟩

/-! ## Claim theorems -/

/-- C1: during the transfer phase, an exception other than the
capability-missing `AttributeError` raised in one namespace's body is
caught by `migrate` and not re-raised: provided no namespace raises
`AttributeError`, every namespace — including all namespaces after the
failing one — is still attempted in enumeration order, and the final
reported total is the sum of every namespace's counted records, so
records transferred in later namespaces are still counted. -/
theorem namespace_failure_isolated
    (okf : List MigRecord → Bool) (pages : String → List PageStep)
    (pre post : List String) (ns : String)
    (hpre : ∀ n ∈ pre, (processNs okf (pages n)).2 ≠ some PyExc.attrError)
    (hns : (processNs okf (pages ns)).2 = some PyExc.otherError)
    (hpost : ∀ n ∈ post, (processNs okf (pages n)).2 ≠ some PyExc.attrError) :
    (transferLoop okf pages (pre ++ ns :: post)).attempted =
      pre ++ ns :: post ∧
    (transferLoop okf pages (pre ++ ns :: post)).total =
      ((pre ++ ns :: post).map
        (fun n => (processNs okf (pages n)).1.sum)).sum := by
  have hall : ∀ n ∈ pre ++ ns :: post,
      (processNs okf (pages n)).2 ≠ some PyExc.attrError := by
    intro n hn
    rcases List.mem_append.mp hn with h | h
    · exact hpre n h
    · rcases List.mem_cons.mp h with h | h
      · subst h; simp [hns]
      · exact hpost n h
  rw [transferLoop_no_attr okf pages _ hall]
  exact ⟨rfl, rfl⟩

theorem namespace_failure_isolated_witness :
    (transferLoop (fun _ => true)
      (fun n => if n = "b" then [PageStep.raise PyExc.otherError]
        else [PageStep.page ["x"] [("x", ⟨[1], none⟩)]])
      (["a"] ++ "b" :: ["c"])).attempted = ["a"] ++ "b" :: ["c"] ∧
    (transferLoop (fun _ => true)
      (fun n => if n = "b" then [PageStep.raise PyExc.otherError]
        else [PageStep.page ["x"] [("x", ⟨[1], none⟩)]])
      (["a"] ++ "b" :: ["c"])).total =
      ((["a"] ++ "b" :: ["c"]).map
        (fun n => (processNs (fun _ => true)
          ((fun n => if n = "b" then [PageStep.raise PyExc.otherError]
            else [PageStep.page ["x"] [("x", ⟨[1], none⟩)]]) n)).1.sum)).sum :=
  namespace_failure_isolated (fun _ => true)
    (fun n => if n = "b" then [PageStep.raise PyExc.otherError]
      else [PageStep.page ["x"] [("x", ⟨[1], none⟩)]])
    ["a"] ["c"] "b" (by decide) (by decide) (by decide)

/-- C2: if a namespace's body raises `AttributeError` (the source index
has no ID-listing capability), the transfer loop `break`s: the namespaces
after it are not attempted, the capability-missing branch is taken, and
`migrate` still falls through to the completion summary (a `completed`
outcome, not a process exit). -/
theorem capability_missing_aborts_transfer
    (s d : String) (env : Env) (dim : Nat) (met : String)
    (stats : IndexStats) (pre post : List String) (ns : String)
    (hs : s ∈ env.sourceIndexes)
    (hsd : env.sourceDescribe = .ok dim met)
    (hdest : d ∈ env.destIndexes →
      ∀ dd mt, env.destDescribe = .ok dd mt → dd = dim)
    (hstats : env.sourceStats = some stats)
    (hsplit : deriveNamespaces stats = pre ++ ns :: post)
    (hpre : ∀ n ∈ pre,
      (processNs env.upsertOk (env.pages n)).2 ≠ some PyExc.attrError)
    (hns : (processNs env.upsertOk (env.pages ns)).2 = some PyExc.attrError) :
    (transferLoop env.upsertOk env.pages (deriveNamespaces stats)).attempted =
      pre ++ [ns] ∧
    (transferLoop env.upsertOk env.pages
      (deriveNamespaces stats)).capabilityAbort = true ∧
    (migrate s d env).outcome =
      .completed
        (transferLoop env.upsertOk env.pages (deriveNamespaces stats)).total
        true := by
  have hb := transferLoop_break env.upsertOk env.pages pre post ns hpre hns
  have hm := migrate_run s d env dim met stats hs hsd hdest hstats
  rw [hsplit, hb]
  rw [hsplit, hb] at hm
  refine ⟨rfl, rfl, ?_⟩
  rw [hm]

theorem capability_missing_aborts_transfer_witness :
    (transferLoop (fun _ => true)
      (fun n => if n = "b" then [PageStep.raise PyExc.attrError]
        else [PageStep.page ["x"] [("x", ⟨[1], none⟩)]])
      (deriveNamespaces ⟨3, some [("a", 1), ("b", 1), ("c", 1)]⟩)).attempted =
      ["a"] ++ ["b"] ∧
    (transferLoop (fun _ => true)
      (fun n => if n = "b" then [PageStep.raise PyExc.attrError]
        else [PageStep.page ["x"] [("x", ⟨[1], none⟩)]])
      (deriveNamespaces
        ⟨3, some [("a", 1), ("b", 1), ("c", 1)]⟩)).capabilityAbort = true ∧
    (migrate "s" "d"
      ⟨["s"], .ok 8 "cosine", [], .err,
       some ⟨3, some [("a", 1), ("b", 1), ("c", 1)]⟩,
       fun n => if n = "b" then [PageStep.raise PyExc.attrError]
         else [PageStep.page ["x"] [("x", ⟨[1], none⟩)]],
       fun _ => true⟩).outcome =
      .completed
        (transferLoop (fun _ => true)
          (fun n => if n = "b" then [PageStep.raise PyExc.attrError]
            else [PageStep.page ["x"] [("x", ⟨[1], none⟩)]])
          (deriveNamespaces ⟨3, some [("a", 1), ("b", 1), ("c", 1)]⟩)).total
        true :=
  capability_missing_aborts_transfer "s" "d"
    ⟨["s"], .ok 8 "cosine", [], .err,
     some ⟨3, some [("a", 1), ("b", 1), ("c", 1)]⟩,
     fun n => if n = "b" then [PageStep.raise PyExc.attrError]
       else [PageStep.page ["x"] [("x", ⟨[1], none⟩)]],
     fun _ => true⟩
    8 "cosine" ⟨3, some [("a", 1), ("b", 1), ("c", 1)]⟩
    ["a"] ["c"] "b" (by decide) rfl (fun h => absurd h (by decide)) rfl
    (by decide) (by decide) (by decide)

/-- C3: for a non-`None` stats object, the derived namespace list is the
keys of the per-namespace counts mapping when that mapping is nonempty;
when the mapping is empty or absent and `total_vector_count > 0` the list
is exactly `[""]`; and when the mapping is empty or absent and
`total_vector_count = 0` the list is empty. -/
theorem namespace_enumeration (s : IndexStats) :
    (∀ m, s.namespaces = some m → m ≠ [] →
      deriveNamespaces s = m.map Prod.fst) ∧
    ((s.namespaces = none ∨ s.namespaces = some []) →
      0 < s.total_vector_count → deriveNamespaces s = [""]) ∧
    ((s.namespaces = none ∨ s.namespaces = some []) →
      s.total_vector_count = 0 → deriveNamespaces s = []) := by
  refine ⟨?_, ?_, ?_⟩
  · intro m hm hne
    simp [deriveNamespaces, hm, hne]
  · rintro (h | h) ht <;> simp [deriveNamespaces, h, ht]
  · rintro (h | h) ht <;> simp [deriveNamespaces, h, ht]

theorem namespace_enumeration_witness :
    deriveNamespaces ⟨5, some []⟩ = [""] :=
  (namespace_enumeration ⟨5, some []⟩).2.1 (Or.inr rfl) (by decide)

/-- C4: for every non-empty list of K records and batch size B ≥ 1, when
no remote call raises, `upsert_data` issues exactly
`ceil(K/B) = (K+B-1)/B` upsert calls; the i-th call carries the slice
`vectors[i*B : min((i+1)*B, K)]`; every batch has size ≤ B; and the
concatenation of the batches in call order is the input list. -/
theorem upsert_batch_chunking {α : Type} (l : List α) (B : Nat)
    (hl : l ≠ []) (hB : 1 ≤ B) (okf : List α → Bool)
    (hok : ∀ b, okf b = true) :
    upsertDataCalls l B okf = upsertBatches l B ∧
    (upsertBatches l B).length = (l.length + B - 1) / B ∧
    (∀ i, i < (l.length + B - 1) / B →
      (upsertBatches l B)[i]? =
        some (pySlice l (i * B) (min ((i + 1) * B) l.length))) ∧
    (∀ b ∈ upsertBatches l B, b.length ≤ B) ∧
    (upsertBatches l B).flatten = l := by
  refine ⟨?_, upsertBatches_length l B, fun i hi => upsertBatches_get l B i hi,
    upsertBatches_size_le l B, upsertBatches_flatten hB l⟩
  unfold upsertDataCalls
  rw [if_neg (by simpa using hl), issueCalls_all_ok okf hok]

theorem upsert_batch_chunking_witness :
    upsertDataCalls [1, 2, 3, 4, 5] 2 (fun _ => true) =
      upsertBatches [1, 2, 3, 4, 5] 2 ∧
    (upsertBatches ([1, 2, 3, 4, 5] : List Nat) 2).length = 3 ∧
    (upsertBatches ([1, 2, 3, 4, 5] : List Nat) 2).flatten = [1, 2, 3, 4, 5] := by
  have h := upsert_batch_chunking ([1, 2, 3, 4, 5] : List Nat) 2
    (by decide) (by decide) (fun _ => true) (fun _ => rfl)
  exact ⟨h.1, h.2.1, h.2.2.2.2⟩

/-- C5: if the destination index exists and its described dimension
differs from the source's, `migrate` exits with code 1 before the
transfer phase, issuing zero upsert calls. -/
theorem dimension_mismatch_fatal (s d : String) (env : Env)
    (dim : Nat) (met : String) (dd : Nat) (mt : String)
    (hs : s ∈ env.sourceIndexes)
    (hsd : env.sourceDescribe = .ok dim met)
    (hd : d ∈ env.destIndexes)
    (hdd : env.destDescribe = .ok dd mt)
    (hne : dd ≠ dim) :
    migrate s d env = ⟨[], .exited 1⟩ := by
  have hde : destDimensionExit d env dim = true :=
    (destDimensionExit_true d env dim).mpr ⟨hd, dd, mt, hdd, hne⟩
  simp [migrate, hs, hsd, hde]

theorem dimension_mismatch_fatal_witness :
    migrate "s" "d"
      ⟨["s"], .ok 1536 "cosine", ["d"], .ok 768 "cosine",
       some ⟨3, some [("", 3)]⟩, fun _ => [], fun _ => true⟩ =
      ⟨[], .exited 1⟩ :=
  dimension_mismatch_fatal "s" "d"
    ⟨["s"], .ok 1536 "cosine", ["d"], .ok 768 "cosine",
     some ⟨3, some [("", 3)]⟩, fun _ => [], fun _ => true⟩
    1536 "cosine" 768 "cosine" (by decide) rfl (by decide) rfl (by decide)

/-- C6: the claim matches the intent but not the code.  The guard at
line 104 tests the configured name string against the raw descriptor
objects of `pc.list_indexes()`, so it is always false and the delete
branch of lines 105-107 is unreachable.  At the failing input — the
configured index `"i"` present on the remote as the descriptor
`{name: "i"}`, with a cached connection — `delete_index` still takes
the "does not exist" branch: it issues no remote delete, leaves the
cached connection, and only prints the notice; and in general every
call returns the notice and changes nothing.  In particular the
claim's present-name behavior (`deleteCall` issued, cache cleared)
never occurs. -/
theorem delete_index_never_deletes :
    delete_index ⟨"i", true⟩ ⟨[⟨"i"⟩]⟩ =
      (⟨"i", true⟩, ⟨[⟨"i"⟩]⟩, [DeleteEvent.noticeAbsent]) ∧
    ∀ (m : ManagerConn) (r : RemoteState),
      delete_index m r = (m, r, [DeleteEvent.noticeAbsent]) := by
  constructor
  · rfl
  · intro m r
    unfold delete_index
    rw [if_neg (by simp [List.any_eq_true, pyStrEqIndexModel])]

/-- C7: a clean exit code 0 (falling off `main`) happens exactly when the
transfer phase runs to completion — regardless of per-namespace failures,
which are only logged — and every explicit `sys.exit` uses code 1 and
stems from one of the setup-phase fatal conditions: missing credentials,
missing interactive source index name, source index not found,
source-config describe failure, or destination dimension mismatch. -/
theorem exit_code_policy (m : MainEnv) :
    ((pyMain m).outcome.cleanExitCode = some 0 ↔
      ∃ t cap, (pyMain m).outcome = .completed t cap) ∧
    (∀ c, (pyMain m).outcome = .exited c → c = 1 ∧ setupFailure m) := by
  constructor
  · constructor
    · intro h
      cases ho : (pyMain m).outcome with
      | exited c =>
        obtain ⟨c1, _⟩ := pyMain_exited m c ho
        rw [ho, c1] at h
        simp [Outcome.cleanExitCode] at h
      | crashed =>
        rw [ho] at h
        simp [Outcome.cleanExitCode] at h
      | completed t cap => exact ⟨t, cap, rfl⟩
    · rintro ⟨t, cap, h⟩
      rw [h]
      rfl
  · intro c hc
    exact pyMain_exited m c hc

theorem exit_code_policy_witness :
    1 = 1 ∧ setupFailure
      ⟨"", "k", ["s"], "", "",
       ⟨[], .err, [], .err, none, fun _ => [], fun _ => true⟩⟩ :=
  (exit_code_policy
    ⟨"", "k", ["s"], "", "",
     ⟨[], .err, [], .err, none, fun _ => [], fun _ => true⟩⟩).2 1 (by decide)

/-- C8: when `describe_index_stats` returns its `None` sentinel, the
guarded namespace expression tolerates it but the subsequent
`source_stats.total_vector_count` access raises an unhandled
`AttributeError`: `migrate` crashes before the transfer phase (zero
upserts) instead of exiting cleanly, and in particular does not exit
cleanly with code 1. -/
theorem none_stats_crash (s d : String) (env : Env) (dim : Nat)
    (met : String)
    (hs : s ∈ env.sourceIndexes)
    (hsd : env.sourceDescribe = .ok dim met)
    (hdest : d ∈ env.destIndexes →
      ∀ dd mt, env.destDescribe = .ok dd mt → dd = dim)
    (hstats : env.sourceStats = none) :
    migrate s d env = ⟨[], .crashed⟩ ∧
    (migrate s d env).outcome.cleanExitCode = none := by
  have hde := destDimensionExit_false d env dim hdest
  have h1 : migrate s d env = ⟨[], .crashed⟩ := by
    simp [migrate, hs, hsd, hde, hstats]
  refine ⟨h1, ?_⟩
  rw [h1]
  rfl

theorem none_stats_crash_witness :
    migrate "s" "d"
      ⟨["s"], .ok 8 "cosine", [], .err, none, fun _ => [], fun _ => true⟩ =
      ⟨[], .crashed⟩ :=
  (none_stats_crash "s" "d"
    ⟨["s"], .ok 8 "cosine", [], .err, none, fun _ => [], fun _ => true⟩
    8 "cosine" (by decide) rfl (fun h => absurd h (by decide)) rfl).1

/-- C9: a `PineconeManager` captures its API key and index name from the
process environment exactly once, at construction: after `migrate`
mutates the environment variables for the destination and constructs the
destination manager, the source manager's captured credentials and index
binding are still the source values. -/
theorem credentials_fixed_at_construction (e0 : Environ)
    (source_key source_index_name dest_key dest_index_name : String) :
    (migrateManagers e0 source_key source_index_name
      dest_key dest_index_name).1 =
      ⟨some source_key, some source_index_name⟩ ∧
    (migrateManagers e0 source_key source_index_name
      dest_key dest_index_name).2 =
      ⟨some dest_key, some dest_index_name⟩ := by
  constructor <;> rfl

/-- C10: the reported migrated total counts every record whose upsert
call was attempted, not every record written: the transfer result (its
total included) is identical under any two destination upsert oracles,
because `upsert_data` swallows upsert exceptions; and a nonempty page's
single-chunk upsert call is issued whether or not the remote call
raises. -/
theorem total_counts_attempted_upserts
    (okf okf' : List MigRecord → Bool) (pages : String → List PageStep)
    (nss : List String) :
    transferLoop okf pages nss = transferLoop okf' pages nss ∧
    ∀ batch : List MigRecord, batch ≠ [] →
      upsertDataCalls batch batch.length okf = [batch] := by
  refine ⟨?_, fun batch hb => upsertDataCalls_self batch hb okf⟩
  induction nss with
  | nil => rfl
  | cons ns rest ih =>
    unfold transferLoop
    rw [processNs_okf_irrel okf okf' (pages ns), ih]

theorem total_counts_attempted_upserts_witness :
    upsertDataCalls [(⟨"x", [1], []⟩ : MigRecord)]
      [(⟨"x", [1], []⟩ : MigRecord)].length (fun _ => false) =
      [[(⟨"x", [1], []⟩ : MigRecord)]] :=
  (total_counts_attempted_upserts (fun _ => false) (fun _ => true)
    (fun _ => []) []).2 [(⟨"x", [1], []⟩ : MigRecord)] (by decide)

end PineconeScripts
